import Mathlib

/-!
Verification model of the TaskUno task-event notification pipeline:
the event producer (`RedisEventQueue.enqueue_task_event`, the tail of
`TaskService.update_task` / `TaskService.delete_task`), the queue wire
format (`json.dumps` / `json.loads` over the envelope record), and the
consumer (`EmailWorker.process_event`, `send_task_notification_email`).

Python's dynamically-typed JSON-representable values are embedded as
`PyVal`; Python dicts are ordered association lists (`PyFields`);
exceptions are explicit (`PyExc` inside `Except`); the SMTP transport
and the Redis backend are oracles supplied as parameters.
-/

namespace TaskUno

mutual

/-- A JSON-representable Python value: `None`, `bool`, `int`, `str`, or a
`dict` with string keys (`PyFields`, an insertion-ordered field list).
Lists and floats do not occur in the event envelope and are omitted. -/
inductive PyVal where
  | null : PyVal
  | bool : Bool → PyVal
  | int : Int → PyVal
  | str : String → PyVal
  | obj : PyFields → PyVal

/-- The field list of a Python dict, in insertion order. -/
inductive PyFields where
  | nil : PyFields
  | cons : String → PyVal → PyFields → PyFields

end

mutual

def PyVal.beq : PyVal → PyVal → Bool
  | .null, .null => true
  | .bool a, .bool b => a == b
  | .int a, .int b => a == b
  | .str a, .str b => a == b
  | .obj a, .obj b => PyFields.beq a b
  | _, _ => false

def PyFields.beq : PyFields → PyFields → Bool
  | .nil, .nil => true
  | .cons k v r, .cons k2 v2 r2 => k == k2 && PyVal.beq v v2 && PyFields.beq r r2
  | _, _ => false

end

mutual

theorem pyVal_beq_iff : ∀ a b : PyVal, PyVal.beq a b = true ↔ a = b
  | .null, b => by cases b <;> simp [PyVal.beq]
  | .bool x, b => by cases b <;> simp [PyVal.beq]
  | .int x, b => by cases b <;> simp [PyVal.beq]
  | .str x, b => by cases b <;> simp [PyVal.beq]
  | .obj x, b => by
      cases b <;> simp [PyVal.beq]
      exact pyFields_beq_iff x _

theorem pyFields_beq_iff : ∀ a b : PyFields, PyFields.beq a b = true ↔ a = b
  | .nil, b => by cases b <;> simp [PyFields.beq]
  | .cons k v r, b => by
      cases b <;> simp [PyFields.beq]
      rw [pyVal_beq_iff v _, pyFields_beq_iff r _]
      exact and_assoc

end

instance : DecidableEq PyVal := fun a b =>
  decidable_of_iff (PyVal.beq a b = true) (pyVal_beq_iff a b)

instance : DecidableEq PyFields := fun a b =>
  decidable_of_iff (PyFields.beq a b = true) (pyFields_beq_iff a b)

/-- `dict.get(key, default)`: the value at `key`, or `default` when absent.
Later occurrences override earlier ones, as in a Python dict built by
repeated insertion (relevant only when a decoded record repeats a key). -/
def PyFields.getD : PyFields → String → PyVal → PyVal
  | .nil, _, d => d
  | .cons k v r, key, d => PyFields.getD r key (if k = key then v else d)

/-- Whether the dict has an entry for `key` (Python `key in d`). -/
def PyFields.hasKey : PyFields → String → Bool
  | .nil, _ => false
  | .cons k _ r, key => k = key || PyFields.hasKey r key

/-- Append one field at the end of the field list. -/
def PyFields.append : PyFields → String → PyVal → PyFields
  | .nil, k, v => .cons k v .nil
  | .cons k0 v0 r, k, v => .cons k0 v0 (PyFields.append r k v)

/-- Python truthiness of a value (`bool(v)`): `None`, `False`, `0`, `""`
and `{}` are falsy, everything else truthy. -/
def pyTruthy : PyVal → Bool
  | .null => false
  | .bool b => b
  | .int n => n ≠ 0
  | .str s => s ≠ ""
  | .obj .nil => false
  | .obj (.cons _ _ _) => true

/-- Python `v == s` for a string literal `s`: true only when `v` is the
equal string (cross-type `==` is `False`, it does not raise). -/
def pyEqStr (v : PyVal) (s : String) : Bool :=
  match v with
  | .str t => t = s
  | _ => false

mutual

/-- Python `str(v)` for scalars, `repr`-style for nested dicts; scalar
renderings (`None`, `True`, `False`, decimal ints, the bare string) are
exact, nested-dict rendering is a faithful-shape approximation whose text
no theorem depends on. -/
def pyStr : PyVal → String
  | .null => "None"
  | .bool b => if b then "True" else "False"
  | .int n => toString n
  | .str s => s
  | .obj fs => "\x7b" ++ pyStrFields fs ++ "\x7d"

def pyStrFields : PyFields → String
  | .nil => ""
  | .cons k v .nil => "'" ++ k ++ "': " ++ pyReprVal v
  | .cons k v (.cons k2 v2 r) =>
      "'" ++ k ++ "': " ++ pyReprVal v ++ ", " ++ pyStrFields (.cons k2 v2 r)

def pyReprVal : PyVal → String
  | .null => "None"
  | .bool b => if b then "True" else "False"
  | .int n => toString n
  | .str s => "'" ++ s ++ "'"
  | .obj fs => "\x7b" ++ pyStrFields fs ++ "\x7d"

end

instance {ε α : Type} [DecidableEq ε] [DecidableEq α] : DecidableEq (Except ε α) :=
  fun x y =>
  match x, y with
  | .ok a, .ok b =>
    if h : a = b then isTrue (by rw [h])
    else isFalse (by intro hc; injection hc; exact h (by assumption))
  | .error a, .error b =>
    if h : a = b then isTrue (by rw [h])
    else isFalse (by intro hc; injection hc; exact h (by assumption))
  | .ok _, .error _ => isFalse (by intro hc; exact Except.noConfusion hc)
  | .error _, .ok _ => isFalse (by intro hc; exact Except.noConfusion hc)

/-! ## The queue wire format: `json.dumps` / `json.loads`

The envelope is serialized with `json.dumps(event)` (default separators
`", "` and `": "`) and decoded with `json.loads`.  The codec below models
that external capability over the JSON-representable values of `PyVal`:
mandatory string escapes (quote, backslash, and control characters, the
latter via the short escapes and `\u00XX`) with other characters carried
literally, decimal integers, and insertion-ordered objects. -/

/-- Decodes after `Char.ofNat` on any valid scalar value. -/
theorem toNat_ofNat_valid (n : Nat) (h : n.isValidChar) : (Char.ofNat n).toNat = n := by
  simp [Char.ofNat, h, Char.ofNatAux, Char.toNat, UInt32.toNat]

/-- Rebuilding a character from its scalar value gives it back. -/
theorem ofNat_toNat_char (c : Char) : Char.ofNat c.toNat = c := by
  have h : c.toNat.isValidChar := c.valid
  apply Char.eq_of_val_eq
  simp [Char.ofNat, h, Char.ofNatAux]
  apply UInt32.eq_of_toBitVec_eq
  apply BitVec.eq_of_toNat_eq
  simp [Char.toNat, UInt32.toNat]

/-- ASCII decimal digit test on the scalar value. -/
def isDigit (c : Char) : Bool := 48 ≤ c.toNat && c.toNat ≤ 57

/-- JSON insignificant whitespace. -/
def isWs (c : Char) : Bool := c = ' ' || c = '\n' || c = '\t' || c = '\r'

/-- The character of one decimal digit. -/
def digitChar (d : Nat) : Char := Char.ofNat (48 + d)

/-- The numeric value of one decimal digit character. -/
def digitVal (c : Char) : Nat := c.toNat - 48

/-- Lower-case hexadecimal digit character. -/
def hexDig (d : Nat) : Char :=
  if d < 10 then Char.ofNat (48 + d) else Char.ofNat (87 + d)

/-- The numeric value of a hexadecimal digit character, if it is one. -/
def hexVal (c : Char) : Option Nat :=
  if 48 ≤ c.toNat ∧ c.toNat ≤ 57 then some (c.toNat - 48)
  else if 97 ≤ c.toNat ∧ c.toNat ≤ 102 then some (c.toNat - 87)
  else if 65 ≤ c.toNat ∧ c.toNat ≤ 70 then some (c.toNat - 55)
  else none

/-- The escape of one character inside a JSON string literal: `"` and `\`
are backslash-escaped, the common control characters use their short
escapes, remaining control characters use `\u00XX`, and every other
character stands for itself. -/
def escChar (c : Char) : List Char :=
  if c = '"' then ['\\', '"']
  else if c = '\\' then ['\\', '\\']
  else if c = '\n' then ['\\', 'n']
  else if c = '\t' then ['\\', 't']
  else if c = '\r' then ['\\', 'r']
  else if c = Char.ofNat 8 then ['\\', 'b']
  else if c = Char.ofNat 12 then ['\\', 'f']
  else if c.toNat < 32 then
    ['\\', 'u', '0', '0', hexDig (c.toNat / 16), hexDig (c.toNat % 16)]
  else [c]

/-- Escape every character of a string body. -/
def escString : List Char → List Char
  | [] => []
  | c :: r => escChar c ++ escString r

/-- A JSON string literal: quote, escaped body, quote. -/
def serStr (s : String) : List Char := '"' :: (escString s.toList ++ ['"'])

/-- Decimal digits of a positive number, least significant first. -/
def natDigitsRev (n : Nat) : List Char :=
  if n = 0 then [] else digitChar (n % 10) :: natDigitsRev (n / 10)
  termination_by n
  decreasing_by exact Nat.div_lt_self (Nat.pos_of_ne_zero (by assumption)) (by decide)

/-- Decimal rendering of a natural number. -/
def serNat (n : Nat) : List Char :=
  if n = 0 then ['0'] else (natDigitsRev n).reverse

/-- Decimal rendering of an integer (Python `int` repr). -/
def serInt (n : Int) : List Char :=
  if n < 0 then '-' :: serNat n.natAbs else serNat n.toNat

mutual

/-- Serialization of one value, as `json.dumps` renders it. -/
def serVal : PyVal → List Char
  | .null => "null".toList
  | .bool true => "true".toList
  | .bool false => "false".toList
  | .int n => serInt n
  | .str s => serStr s
  | .obj fs => '{' :: (serFields fs ++ ['}'])

/-- Serialization of the members of an object, separated by `", "` with
`": "` after each key (the `json.dumps` default separators). -/
def serFields : PyFields → List Char
  | .nil => []
  | .cons k v .nil => serStr k ++ ':' :: ' ' :: serVal v
  | .cons k v (.cons k2 v2 r) =>
      serStr k ++ ':' :: ' ' :: serVal v ++ ',' :: ' ' :: serFields (.cons k2 v2 r)

end

/-- `json.dumps(event)`: the queue wire format of one value. -/
def jsonDumps (v : PyVal) : String := String.mk (serVal v)

/-- Skip insignificant whitespace. -/
def skipWs : List Char → List Char
  | [] => []
  | c :: cs => if isWs c then skipWs cs else c :: cs

/-- Consume an expected literal character sequence. -/
def expectChars : List Char → List Char → Option (List Char)
  | [], cs => some cs
  | p :: ps, c :: cs => if c = p then expectChars ps cs else none
  | _ :: _, [] => none

/-- Combine four hexadecimal digit characters into a scalar value. -/
def hex4 (a b c d : Char) : Option Nat :=
  match hexVal a, hexVal b, hexVal c, hexVal d with
  | some va, some vb, some vc, some vd => some (((va * 16 + vb) * 16 + vc) * 16 + vd)
  | _, _, _, _ => none

/-- Parse the body of a JSON string literal after the opening quote,
accumulating decoded characters in reverse. -/
def parseStrBody (acc : List Char) : List Char → Option (String × List Char)
  | [] => none
  | c :: rest =>
    if c = '"' then some (String.mk acc.reverse, rest)
    else if c = '\\' then
      match rest with
      | [] => none
      | e :: rest2 =>
        if e = 'u' then
          match rest2 with
          | a :: b :: c2 :: d :: rest3 =>
            match hex4 a b c2 d with
            | some n => parseStrBody (Char.ofNat n :: acc) rest3
            | none => none
          | _ => none
        else if e = '"' then parseStrBody ('"' :: acc) rest2
        else if e = '\\' then parseStrBody ('\\' :: acc) rest2
        else if e = '/' then parseStrBody ('/' :: acc) rest2
        else if e = 'n' then parseStrBody ('\n' :: acc) rest2
        else if e = 't' then parseStrBody ('\t' :: acc) rest2
        else if e = 'r' then parseStrBody ('\r' :: acc) rest2
        else if e = 'b' then parseStrBody (Char.ofNat 8 :: acc) rest2
        else if e = 'f' then parseStrBody (Char.ofNat 12 :: acc) rest2
        else none
    else parseStrBody (c :: acc) rest

/-- Split a leading run of decimal digits from the input. -/
def takeDigits : List Char → List Char × List Char
  | [] => ([], [])
  | c :: cs =>
    if isDigit c then
      let p := takeDigits cs
      (c :: p.1, p.2)
    else ([], c :: cs)

/-- The value of a digit run, most significant first. -/
def digitsVal (ds : List Char) : Nat :=
  List.foldl (fun a c => 10 * a + digitVal c) 0 ds

/-- Parse a nonempty run of decimal digits into a natural number. -/
def parseNatNum (cs : List Char) : Option (Nat × List Char) :=
  match takeDigits cs with
  | ([], _) => none
  | (ds, rest) => some (digitsVal ds, rest)

mutual

/-- Parse one JSON value (`json.loads` grammar over the `PyVal` subset).
The fuel bounds recursion depth; `jsonLoads` supplies enough for any
input it can represent. -/
def parseVal : Nat → List Char → Option (PyVal × List Char)
  | 0 => fun _ => none
  | Nat.succ fuel => fun cs =>
    match skipWs cs with
    | [] => none
    | c :: rest =>
      if c = 'n' then
        match expectChars ['u', 'l', 'l'] rest with
        | some rest2 => some (.null, rest2)
        | none => none
      else if c = 't' then
        match expectChars ['r', 'u', 'e'] rest with
        | some rest2 => some (.bool true, rest2)
        | none => none
      else if c = 'f' then
        match expectChars ['a', 'l', 's', 'e'] rest with
        | some rest2 => some (.bool false, rest2)
        | none => none
      else if c = '"' then
        match parseStrBody [] rest with
        | some (s, rest2) => some (.str s, rest2)
        | none => none
      else if c = '{' then
        match skipWs rest with
        | [] => none
        | c2 :: rest2 =>
          if c2 = '}' then some (.obj .nil, rest2)
          else
            match parseMembers fuel (c2 :: rest2) with
            | some (fs, rest3) => some (.obj fs, rest3)
            | none => none
      else if c = '-' then
        match parseNatNum rest with
        | some (n, rest2) => some (.int (-(n : Int)), rest2)
        | none => none
      else if isDigit c then
        match parseNatNum (c :: rest) with
        | some (n, rest2) => some (.int (n : Int), rest2)
        | none => none
      else none

/-- Parse the nonempty member list of a JSON object, up to and including
the closing brace. -/
def parseMembers : Nat → List Char → Option (PyFields × List Char)
  | 0 => fun _ => none
  | Nat.succ fuel => fun cs =>
    match skipWs cs with
    | [] => none
    | c :: rest =>
      if c = '"' then
        match parseStrBody [] rest with
        | none => none
        | some (k, rest2) =>
          match skipWs rest2 with
          | [] => none
          | c2 :: rest3 =>
            if c2 = ':' then
              match parseVal fuel rest3 with
              | none => none
              | some (v, rest4) =>
                match skipWs rest4 with
                | [] => none
                | c3 :: rest5 =>
                  if c3 = ',' then
                    match parseMembers fuel rest5 with
                    | none => none
                    | some (fs, rest6) => some (.cons k v fs, rest6)
                  else if c3 = '}' then some (.cons k v .nil, rest5)
                  else none
            else none
      else none

end

/-- `json.loads(s)`: decode one value and reject trailing content. -/
def jsonLoads (s : String) : Option PyVal :=
  match parseVal (s.toList.length + 1) s.toList with
  | some (v, rest) => if skipWs rest = [] then some v else none
  | none => none

/-! ## Round-trip of the wire format -/

/-- Input that cannot be mistaken for the continuation of a number. -/
def numSafe : List Char → Bool
  | [] => true
  | c :: _ => !(isDigit c)

mutual

/-- Fuel needed to parse a serialized value. -/
def pySize : PyVal → Nat
  | .null => 1
  | .bool _ => 1
  | .int _ => 1
  | .str _ => 1
  | .obj fs => 1 + sizeFields fs

/-- Fuel needed to parse a serialized member list. -/
def sizeFields : PyFields → Nat
  | .nil => 0
  | .cons _ v r => 1 + pySize v + sizeFields r

end

theorem pySize_pos (v : PyVal) : 1 ≤ pySize v := by
  cases v <;> simp [pySize]

theorem skipWs_not_ws {c : Char} (h : isWs c = false) (cs : List Char) :
    skipWs (c :: cs) = c :: cs := by
  simp [skipWs, h]

theorem skipWs_space (cs : List Char) : skipWs (' ' :: cs) = skipWs cs := by
  simp [skipWs, isWs]

theorem digitVal_digitChar {d : Nat} (h : d < 10) : digitVal (digitChar d) = d := by
  have hv : (48 + d).isValidChar := Or.inl (by omega)
  simp [digitVal, digitChar, toNat_ofNat_valid _ hv]

theorem isDigit_digitChar {d : Nat} (h : d < 10) : isDigit (digitChar d) = true := by
  have hv : (48 + d).isValidChar := Or.inl (by omega)
  simp [isDigit, digitChar, toNat_ofNat_valid _ hv]
  omega

theorem natDigitsRev_digits (n : Nat) : ∀ c ∈ natDigitsRev n, isDigit c = true := by
  induction n using Nat.strong_induction_on with
  | _ n ih =>
    intro c hc
    rw [natDigitsRev] at hc
    by_cases h0 : n = 0
    · simp [h0] at hc
    · simp [h0] at hc
      rcases hc with h | h
      · subst h; exact isDigit_digitChar (show n % 10 < 10 from Nat.mod_lt n (by decide))
      · exact ih (n / 10) (Nat.div_lt_self (Nat.pos_of_ne_zero h0) (by decide)) c h

theorem serNat_digits (n : Nat) : ∀ c ∈ serNat n, isDigit c = true := by
  intro c hc
  rw [serNat] at hc
  by_cases h0 : n = 0
  · simp [h0] at hc
    subst hc
    decide
  · simp [h0] at hc
    exact natDigitsRev_digits n c hc

theorem digitsVal_append_one (ds : List Char) (c : Char) :
    digitsVal (ds ++ [c]) = 10 * digitsVal ds + digitVal c := by
  simp [digitsVal, List.foldl_append]

theorem digitsVal_natDigitsRev (n : Nat) :
    digitsVal (natDigitsRev n).reverse = n := by
  induction n using Nat.strong_induction_on with
  | _ n ih =>
    rw [natDigitsRev]
    by_cases h0 : n = 0
    · simp [h0, digitsVal]
    · simp only [h0, if_false, List.reverse_cons]
      rw [digitsVal_append_one,
        ih (n / 10) (Nat.div_lt_self (Nat.pos_of_ne_zero h0) (by decide)),
        digitVal_digitChar (show n % 10 < 10 from Nat.mod_lt n (by decide))]
      omega

theorem digitsVal_serNat (n : Nat) : digitsVal (serNat n) = n := by
  rw [serNat]
  by_cases h0 : n = 0
  · simp [h0, digitsVal, digitVal]
  · simp [h0, digitsVal_natDigitsRev]

theorem serNat_ne_nil (n : Nat) : serNat n ≠ [] := by
  rw [serNat]
  by_cases h0 : n = 0
  · simp [h0]
  · simp only [h0, if_false, ne_eq, List.reverse_eq_nil_iff]
    rw [natDigitsRev]
    simp [h0]

theorem takeDigits_append {ds rest : List Char} (hd : ∀ c ∈ ds, isDigit c = true)
    (hr : numSafe rest = true) : takeDigits (ds ++ rest) = (ds, rest) := by
  induction ds with
  | nil =>
    cases rest with
    | nil => simp [takeDigits]
    | cons c cs =>
      simp [numSafe] at hr
      simp [takeDigits, hr]
  | cons c cs ih =>
    have hc := hd c (by simp)
    simp only [List.cons_append, takeDigits, hc, if_true, List.append_eq]
    rw [ih (fun x hx => hd x (by simp [hx]))]

theorem parseNatNum_serNat (n : Nat) {rest : List Char} (hr : numSafe rest = true) :
    parseNatNum (serNat n ++ rest) = some (n, rest) := by
  rw [parseNatNum, takeDigits_append (serNat_digits n) hr]
  cases h : serNat n with
  | nil => exact absurd h (serNat_ne_nil n)
  | cons c cs =>
    have hv : digitsVal (c :: cs) = n := by rw [← h, digitsVal_serNat]
    simp [hv]

theorem hexVal_hexDig {d : Nat} (h : d < 16) : hexVal (hexDig d) = some d := by
  rw [hexDig]
  by_cases h10 : d < 10
  · have hv : (48 + d).isValidChar := Or.inl (by omega)
    rw [if_pos h10, hexVal, toNat_ofNat_valid _ hv]
    rw [if_pos (by omega)]
    congr 1
    omega
  · have hv : (87 + d).isValidChar := Or.inl (by omega)
    rw [if_neg h10, hexVal, toNat_ofNat_valid _ hv]
    rw [if_neg (by omega), if_pos (by omega)]
    congr 1
    omega

theorem parseStrBody_esc (l : List Char) : ∀ (acc rest : List Char),
    parseStrBody acc (escString l ++ '"' :: rest) =
      some (String.mk (acc.reverse ++ l), rest) := by
  induction l with
  | nil =>
    intro acc rest
    rw [escString, List.nil_append, parseStrBody.eq_def]
    simp
  | cons c cl ih =>
    intro acc rest
    rw [escString, List.append_assoc]
    by_cases h1 : c = '"'
    · subst h1
      rw [show escChar '"' = ['\\', '"'] from rfl]
      rw [List.cons_append, List.cons_append, List.nil_append, parseStrBody.eq_def]
      simp [ih, List.append_assoc]
    · by_cases h2 : c = '\\'
      · subst h2
        rw [show escChar '\\' = ['\\', '\\'] from rfl]
        rw [List.cons_append, List.cons_append, List.nil_append, parseStrBody.eq_def]
        simp [ih, List.append_assoc]
      · by_cases h3 : c = '\n'
        · subst h3
          rw [show escChar '\n' = ['\\', 'n'] from rfl]
          rw [List.cons_append, List.cons_append, List.nil_append, parseStrBody.eq_def]
          simp [ih, List.append_assoc]
        · by_cases h4 : c = '\t'
          · subst h4
            rw [show escChar '\t' = ['\\', 't'] from rfl]
            rw [List.cons_append, List.cons_append, List.nil_append, parseStrBody.eq_def]
            simp [ih, List.append_assoc]
          · by_cases h5 : c = '\r'
            · subst h5
              rw [show escChar '\r' = ['\\', 'r'] from rfl]
              rw [List.cons_append, List.cons_append, List.nil_append, parseStrBody.eq_def]
              simp [ih, List.append_assoc]
            · by_cases h6 : c = Char.ofNat 8
              · subst h6
                rw [show escChar (Char.ofNat 8) = ['\\', 'b'] from rfl]
                rw [List.cons_append, List.cons_append, List.nil_append, parseStrBody.eq_def]
                simp [ih, List.append_assoc]
              · by_cases h7 : c = Char.ofNat 12
                · subst h7
                  rw [show escChar (Char.ofNat 12) = ['\\', 'f'] from rfl]
                  rw [List.cons_append, List.cons_append, List.nil_append, parseStrBody.eq_def]
                  simp [ih, List.append_assoc]
                · by_cases h8 : c.toNat < 32
                  · rw [show escChar c =
                        ['\\', 'u', '0', '0', hexDig (c.toNat / 16), hexDig (c.toNat % 16)] by
                      simp [escChar, h1, h2, h3, h4, h5, h6, h7, h8]]
                    have hhi : hexVal (hexDig (c.toNat / 16)) = some (c.toNat / 16) :=
                      hexVal_hexDig (by omega)
                    have hlo : hexVal (hexDig (c.toNat % 16)) = some (c.toNat % 16) :=
                      hexVal_hexDig (Nat.mod_lt _ (by decide))
                    have hre : ((0 * 16 + 0) * 16 + c.toNat / 16) * 16 + c.toNat % 16
                        = c.toNat := by omega
                    rw [List.cons_append, List.cons_append, List.cons_append,
                      List.cons_append, List.cons_append, List.cons_append,
                      List.nil_append, parseStrBody.eq_def]
                    simp only [hex4, show hexVal '0' = some 0 from rfl, hhi, hlo, hre,
                      ofNat_toNat_char c]
                    simp [ih, List.append_assoc]
                  · rw [show escChar c = [c] by
                      simp [escChar, h1, h2, h3, h4, h5, h6, h7, h8]]
                    rw [List.cons_append, List.nil_append, parseStrBody.eq_def]
                    simp [h1, h2, ih, List.append_assoc]

theorem isWs_false_of_digit {c : Char} (h : isDigit c = true) : isWs c = false := by
  simp [isDigit] at h
  rw [isWs]
  have h1 : ¬ c = ' ' := fun he => by subst he; exact absurd h (by decide)
  have h2 : ¬ c = '\n' := fun he => by subst he; exact absurd h (by decide)
  have h3 : ¬ c = '\t' := fun he => by subst he; exact absurd h (by decide)
  have h4 : ¬ c = '\r' := fun he => by subst he; exact absurd h (by decide)
  simp [h1, h2, h3, h4]

theorem digit_not_lit {c : Char} (h : isDigit c = true) :
    ¬ c = 'n' ∧ ¬ c = 't' ∧ ¬ c = 'f' ∧ ¬ c = '"' ∧ ¬ c = '{' ∧ ¬ c = '-' := by
  simp [isDigit] at h
  refine ⟨?_, ?_, ?_, ?_, ?_, ?_⟩ <;> (intro he; subst he; exact absurd h (by decide))

theorem serInt_ne_nil (n : Int) : serInt n ≠ [] := by
  rw [serInt]
  by_cases hn : n < 0
  · simp [hn]
  · simp [hn, serNat_ne_nil]

mutual

theorem pySize_le_len : ∀ v : PyVal, pySize v ≤ (serVal v).length
  | .null => by simp [pySize, serVal]
  | .bool b => by cases b <;> simp [pySize, serVal]
  | .int n => by
      rw [pySize]
      have h : serInt n ≠ [] := serInt_ne_nil n
      have : 0 < (serInt n).length := List.length_pos.mpr h
      rw [show serVal (.int n) = serInt n from rfl]
      omega
  | .str s => by simp [pySize, serVal, serStr]
  | .obj fs => by
      have h := sizeFields_le_len fs
      rw [pySize, show serVal (.obj fs) = '{' :: (serFields fs ++ ['}']) from rfl]
      simp only [List.length_cons, List.length_append, List.length_singleton]
      omega

theorem sizeFields_le_len : ∀ fs : PyFields, sizeFields fs ≤ (serFields fs).length + 1
  | .nil => by simp [sizeFields]
  | .cons k v .nil => by
      have h := pySize_le_len v
      rw [sizeFields, sizeFields,
        show serFields (.cons k v .nil) = serStr k ++ ':' :: ' ' :: serVal v from rfl]
      simp only [List.length_append, List.length_cons]
      omega
  | .cons k v (.cons k2 v2 r) => by
      have h1 := pySize_le_len v
      have h2 := sizeFields_le_len (.cons k2 v2 r)
      rw [sizeFields, show serFields (.cons k v (.cons k2 v2 r)) =
        serStr k ++ ':' :: ' ' :: serVal v ++ ',' :: ' ' :: serFields (.cons k2 v2 r) from rfl]
      simp only [List.length_append, List.length_cons]
      omega

end

theorem parseVal_space (fuel : Nat) (cs : List Char) :
    parseVal fuel (' ' :: cs) = parseVal fuel cs := by
  cases fuel with
  | zero => rw [parseVal.eq_1]
  | succ f =>
    rw [parseVal.eq_2]
    simp only [skipWs_space]

theorem parseMembers_space (fuel : Nat) (cs : List Char) :
    parseMembers fuel (' ' :: cs) = parseMembers fuel cs := by
  cases fuel with
  | zero => rw [parseMembers.eq_1]
  | succ f =>
    rw [parseMembers.eq_2]
    simp only [skipWs_space]

theorem mk_toList (s : String) : String.mk s.toList = s := rfl

theorem parse_ser (fuel : Nat) :
    (∀ (v : PyVal) (rest : List Char), pySize v ≤ fuel → numSafe rest = true →
      parseVal fuel (serVal v ++ rest) = some (v, rest)) ∧
    (∀ (fs : PyFields) (rest : List Char), fs ≠ .nil → sizeFields fs ≤ fuel →
      parseMembers fuel (serFields fs ++ '}' :: rest) = some (fs, rest)) := by
  induction fuel with
  | zero =>
    constructor
    · intro v rest hs _
      have := pySize_pos v
      omega
    · intro fs rest hne hs
      cases fs with
      | nil => exact absurd rfl hne
      | cons k v r =>
        rw [sizeFields] at hs
        omega
  | succ fuel ih =>
    obtain ⟨ihV, ihM⟩ := ih
    constructor
    · intro v rest hs hn
      rw [parseVal.eq_2]
      beta_reduce
      cases v with
      | null =>
        rw [show serVal .null ++ rest = 'n' :: 'u' :: 'l' :: 'l' :: rest from rfl]
        rw [skipWs_not_ws (by decide)]
        simp +decide [expectChars]
      | bool b =>
        cases b with
        | false =>
          rw [show serVal (.bool false) ++ rest = 'f' :: 'a' :: 'l' :: 's' :: 'e' :: rest
            from rfl]
          rw [skipWs_not_ws (by decide)]
          simp +decide [expectChars]
        | true =>
          rw [show serVal (.bool true) ++ rest = 't' :: 'r' :: 'u' :: 'e' :: rest from rfl]
          rw [skipWs_not_ws (by decide)]
          simp +decide [expectChars]
      | str s =>
        rw [show serVal (.str s) ++ rest = '"' :: (escString s.toList ++ '"' :: rest) by
          rw [show serVal (.str s) = serStr s from rfl, serStr]
          simp [List.append_assoc]]
        rw [skipWs_not_ws (by decide)]
        simp +decide [parseStrBody_esc, mk_toList]
      | int n =>
        rw [show serVal (.int n) = serInt n from rfl, serInt]
        by_cases hneg : n < 0
        · rw [if_pos hneg, List.cons_append]
          rw [skipWs_not_ws (by decide)]
          have hp := parseNatNum_serNat n.natAbs hn
          simp +decide [hp]
          rw [abs_of_neg hneg, neg_neg]
        · rw [if_neg hneg]
          obtain ⟨c, cs, hc⟩ : ∃ c cs, serNat n.toNat = c :: cs := by
            cases h : serNat n.toNat with
            | nil => exact absurd h (serNat_ne_nil _)
            | cons c cs => exact ⟨c, cs, rfl⟩
          have hdig : isDigit c = true := serNat_digits _ c (by rw [hc]; simp)
          obtain ⟨d1, d2, d3, d4, d5, d6⟩ := digit_not_lit hdig
          rw [hc, List.cons_append, skipWs_not_ws (isWs_false_of_digit hdig)]
          have hback : c :: (cs ++ rest) = serNat n.toNat ++ rest := by
            rw [hc, List.cons_append]
          have hp := parseNatNum_serNat n.toNat hn
          have hval : ((n.toNat : Nat) : Int) = n := Int.toNat_of_nonneg (by omega)
          simp [d1, d2, d3, d4, d5, d6, hdig, hback, hp, hval]
      | obj fs =>
        cases fs with
        | nil =>
          rw [show serVal (.obj .nil) ++ rest = '{' :: '}' :: rest from rfl]
          rw [skipWs_not_ws (by decide)]
          simp +decide [skipWs, isWs]
        | cons k v r =>
          rw [show serVal (.obj (.cons k v r)) ++ rest =
            '{' :: (serFields (.cons k v r) ++ '}' :: rest) by
              rw [show serVal (.obj (.cons k v r)) =
                '{' :: (serFields (.cons k v r) ++ ['}']) from rfl]
              simp [List.append_assoc]]
          rw [skipWs_not_ws (by decide)]
          have hm := ihM (.cons k v r) rest (by simp) (by
            rw [pySize] at hs
            omega)
          obtain ⟨t0, ht0⟩ : ∃ t0, serFields (.cons k v r) = '"' :: t0 := by
            cases r with
            | nil =>
              refine ⟨escString k.toList ++ ['"'] ++ ':' :: ' ' :: serVal v, ?_⟩
              rw [serFields, serStr]
              simp [List.append_assoc]
            | cons k2 v2 r2 =>
              refine ⟨escString k.toList ++ ['"'] ++ ':' :: ' ' ::
                serVal v ++ ',' :: ' ' :: serFields (.cons k2 v2 r2), ?_⟩
              rw [serFields, serStr]
              simp [List.append_assoc]
          rw [ht0] at hm ⊢
          rw [List.cons_append] at hm
          simp +decide [skipWs, isWs, hm, List.cons_append]
    · intro fs rest hne hs
      cases fs with
      | nil => exact absurd rfl hne
      | cons k v r =>
        rw [parseMembers.eq_2]
        beta_reduce
        rw [sizeFields] at hs
        cases r with
        | nil =>
          rw [show serFields (.cons k v .nil) ++ '}' :: rest =
            '"' :: (escString k.toList ++ '"' :: (':' :: ' ' :: (serVal v ++ '}' :: rest))) by
              rw [serFields, serStr]
              simp [List.append_assoc]]
          rw [skipWs_not_ws (by decide)]
          have hv := ihV v ('}' :: rest) (by rw [sizeFields] at hs; omega)
            (by simp +decide [numSafe])
          simp +decide [parseStrBody_esc, mk_toList, skipWs, isWs, parseVal_space, hv]
        | cons k2 v2 r2 =>
          rw [show serFields (.cons k v (.cons k2 v2 r2)) ++ '}' :: rest =
            '"' :: (escString k.toList ++ '"' :: (':' :: ' ' :: (serVal v ++ ',' :: ' ' ::
              (serFields (.cons k2 v2 r2) ++ '}' :: rest)))) by
              rw [serFields, serStr]
              simp [List.append_assoc]]
          rw [skipWs_not_ws (by decide)]
          have hv := ihV v (',' :: ' ' :: (serFields (.cons k2 v2 r2) ++ '}' :: rest))
            (by omega) (by simp +decide [numSafe])
          have hm := ihM (.cons k2 v2 r2) rest (by simp) (by
            rw [sizeFields] at hs
            rw [sizeFields]
            omega)
          simp +decide [parseStrBody_esc, mk_toList, skipWs, isWs, parseVal_space, hv,
            parseMembers_space, hm]

/-- Decoding a serialized value recovers it exactly: the codec round-trips
on every JSON-representable value (general form behind the producer
round-trip theorem). -/
theorem jsonLoads_jsonDumps (v : PyVal) : jsonLoads (jsonDumps v) = some v := by
  rw [jsonDumps, jsonLoads]
  rw [show (String.mk (serVal v)).toList = serVal v from rfl]
  have hfuel : pySize v ≤ (serVal v).length + 1 :=
    le_trans (pySize_le_len v) (Nat.le_succ _)
  have hp := (parse_ser ((serVal v).length + 1)).1 v [] hfuel (by decide)
  rw [List.append_nil] at hp
  rw [hp]
  simp [skipWs]

/-! ## The email dispatcher (`email_sender.py`)

`send_task_notification_email` is embedded with Python exceptions made
explicit: every step that can raise returns `Except PyExc`, the function's
outer `try/except Exception` is the final catch, and the SMTP transport
is an oracle (`Transport`) mapping the recipient to the session outcome.
Argument values are `PyVal` because the consumer passes whatever the
decoded record contained. -/

/-- A raised Python exception (only the classes this code can raise or
catch are distinguished). -/
inductive PyExc where
  | nameError (name : String)
  | attributeError (msg : String)
  | typeError (msg : String)
  | other (msg : String)
deriving DecidableEq

/-- The `str(e)` rendering used when a caught exception is logged. -/
def excMsg : PyExc → String
  | .nameError n => "name " ++ n ++ " is not defined"
  | .attributeError m => m
  | .typeError m => m
  | .other m => m

/-- The outcome of one attempted SMTP session (`smtplib.SMTP` connect,
optional STARTTLS, login, send, quit): delivered, or raised
`SMTPAuthenticationError`, or raised any other exception. -/
inductive SmtpOutcome where
  | delivered
  | authFailed (msg : String)
  | raised (msg : String)
deriving DecidableEq

/-- The outbound mail transport as an oracle keyed by the recipient. -/
def Transport : Type := PyVal → SmtpOutcome

/-- The environment-provided SMTP settings of the email service
(`common/config/settings.py`); unset optionals are `none`. -/
structure Settings where
  SMTP_HOST : Option String
  SMTP_PORT : Int
  SMTP_USER : Option String
  SMTP_PASSWORD : Option String
  SMTP_FROM_EMAIL : Option String
  SMTP_USE_TLS : Bool
deriving DecidableEq

/-- Python truthiness of an optional string setting (`None` and `""` are
falsy). -/
def optTruthy : Option String → Bool
  | none => false
  | some s => s ≠ ""

/-- Python `a or b` over an optional string with a string default. -/
def pyOrStr (o : Option String) (d : String) : String :=
  match o with
  | none => d
  | some s => if s = "" then d else s

/-- Substring test (`needle in hay` for Python strings). -/
def strIn (pat : List Char) : List Char → Bool
  | [] => pat.isEmpty
  | c :: t => pat.isPrefixOf (c :: t) || strIn pat t

/-- The `From` header picked by `send_task_notification_email`: the
configured from-address when it looks like an email, a display-name
format when it is plain text, the sender address otherwise. -/
def msgFrom (cfg : Settings) : String :=
  let sender_email := pyOrStr cfg.SMTP_USER "noreply@scrummaster.com"
  let from_email := cfg.SMTP_FROM_EMAIL
  if optTruthy from_email && strIn ['@'] (from_email.getD "").toList then
    from_email.getD ""
  else if optTruthy from_email then
    from_email.getD "" ++ " <" ++ sender_email ++ ">"
  else sender_email

/-- Python `key in v`: key test on a dict, substring test on a string,
`TypeError` otherwise. -/
def pyIn (needle : String) (v : PyVal) : Except PyExc Bool :=
  match v with
  | .obj fs => .ok (fs.hasKey needle)
  | .str s => .ok (strIn needle.toList s.toList)
  | _ => .error (.typeError "argument is not iterable")

/-- Python `v.get(key, default)`: defaulted lookup on a dict,
`AttributeError` on anything else. -/
def pyGetMeth (v : PyVal) (key : String) (default : PyVal) : Except PyExc PyVal :=
  match v with
  | .obj fs => .ok (fs.getD key default)
  | _ => .error (.attributeError "object has no attribute get")

/-- Python `v.items()`: the field list of a dict, `AttributeError` on
anything else. -/
def pyItems (v : PyVal) : Except PyExc PyFields :=
  match v with
  | .obj fs => .ok fs
  | _ => .error (.attributeError "object has no attribute items")

/-- Python `v or {}`. -/
def pyOrEmptyDict (v : PyVal) : PyVal := if pyTruthy v then v else .obj .nil

/-- Python `isinstance(v, dict)`. -/
def pyIsDict : PyVal → Bool
  | .obj _ => true
  | _ => false

/-- One structured log line; the constructors mirror the logger calls of
the pipeline (the exact message text is not load-bearing). -/
inductive LogEvent where
  | smtpHostMissing
  | smtpUserMissing
  | smtpPasswordMissing
  | wouldSendEmail (dest taskId eventType : PyVal)
  | emailSent (dest taskId eventType : PyVal)
  | smtpAuthFailed (msg : String)
  | emailSendFailed (dest : PyVal) (msg : String)
  | errorSendingEmail (dest : PyVal) (msg : String)
  | processingEvent (eventType taskId : PyVal)
  | noAssignedEmail (taskId : PyVal)
  | noReportingEmail (taskId : PyVal)
  | processedEvent (eventType taskId : PyVal)
  | errorProcessingEvent (msg : String)
  | redisUnavailableSkip
  | enqueuedEvent (eventType : String) (taskId : Int)
  | enqueueFailed (msg : String)
  | resolveFailed (which : String) (msg : String)
deriving DecidableEq

/-- The subject line and action word selected from `event_type`
(`email_sender.py` lines 58-70); any unrecognized kind falls back to the
generic notification subject and the action word `modified`. -/
def subjectAction (event_type task_title : PyVal) : String × String :=
  if pyEqStr event_type "task_created" then
    ("New Task Assigned: " ++ pyStr task_title, "created")
  else if pyEqStr event_type "task_updated" then
    ("Task Updated: " ++ pyStr task_title, "updated")
  else if pyEqStr event_type "task_deleted" then
    ("Task Deleted: " ++ pyStr task_title, "deleted")
  else ("Task Notification: " ++ pyStr task_title, "modified")

/-- The rendered status-change line (`email_sender.py` lines 74-87);
raises when `changes` is a truthy non-dict reaching `.get`. -/
def statusChangeText (changes : PyVal) : Except PyExc String := do
  if pyTruthy changes then
    let isIn ← pyIn "status" changes
    if isIn then
      let status_value ← pyGetMeth changes "status" .null
      match status_value with
      | .obj vfs =>
        let old_status := vfs.getD "old" (.str "")
        let new_status := vfs.getD "new" (.str "")
        if pyTruthy old_status && pyTruthy new_status then
          return pyStr old_status ++ " → " ++ pyStr new_status
        else if pyTruthy new_status then
          return "Status changed to: " ++ pyStr new_status
        else return ""
      | _ =>
        if pyTruthy status_value then return "Status: " ++ pyStr status_value
        else return ""
    else return ""
  else return ""

/-- The non-status change lines collected from a changes dict
(`email_sender.py` lines 90-101). -/
def otherChangesOf : PyFields → List String
  | .nil => []
  | .cons key value rest =>
    let tail := otherChangesOf rest
    if key = "status" then tail
    else
      match value with
      | .obj vfs =>
        let old_val := vfs.getD "old" (.str "")
        let new_val := vfs.getD "new" (.str "")
        if pyTruthy old_val && pyTruthy new_val then
          (key ++ ": " ++ pyStr old_val ++ " → " ++ pyStr new_val) :: tail
        else if pyTruthy new_val then (key ++ ": " ++ pyStr new_val) :: tail
        else tail
      | _ => (key ++ ": " ++ pyStr value) :: tail

/-- Iterate `(changes or {}).items()`; raises when `changes` is a truthy
non-dict. -/
def otherChangesList (changes : PyVal) : Except PyExc (List String) := do
  let fs ← pyItems (pyOrEmptyDict changes)
  return otherChangesOf fs

/-- The arguments of `send_task_notification_email`, as the consumer
passes them (decoded record values, hence `PyVal`). -/
structure SendArgs where
  to_email : PyVal
  event_type : PyVal
  task_id : PyVal
  task_title : PyVal
  updated_by_email : PyVal
  updated_by_role : PyVal
  organization_name : PyVal
  changes : PyVal
  reason : PyVal
  recipient_type : String
deriving DecidableEq

/-- Observable behavior of the body of `send_task_notification_email`'s
outer `try`: the outcome (or raised exception), the logs emitted before
returning or raising, and the recipients for which an SMTP session was
opened. -/
structure SendTrace where
  result : Except PyExc Bool
  logs : List LogEvent
  sessions : List PyVal
  subject : String
  action : String

/-- The body of `send_task_notification_email`'s outer `try`
(`email_sender.py` lines 38-409): build the message, select subject and
body content, then either hit an unconfigured-SMTP branch — whose
`logger.info(f"Email content:\n\x7bbody\x7d")` references the undefined
name `body` and raises `NameError` after the would-send lines are logged
— or run the SMTP session with both SMTP exception classes caught. -/
def sendTryBody (cfg : Settings) (tr : Transport) (a : SendArgs) : SendTrace :=
  let sa := subjectAction a.event_type a.task_title
  match statusChangeText a.changes with
  | .error e => ⟨.error e, [], [], sa.1, sa.2⟩
  | .ok _status_change =>
    match otherChangesList a.changes with
    | .error e => ⟨.error e, [], [], sa.1, sa.2⟩
    | .ok _other_changes =>
      if !(optTruthy cfg.SMTP_HOST) then
        ⟨.error (.nameError "body"),
          [.smtpHostMissing, .wouldSendEmail a.to_email a.task_id a.event_type],
          [], sa.1, sa.2⟩
      else if !(optTruthy cfg.SMTP_USER) then
        ⟨.error (.nameError "body"),
          [.smtpUserMissing, .wouldSendEmail a.to_email a.task_id a.event_type],
          [], sa.1, sa.2⟩
      else if !(optTruthy cfg.SMTP_PASSWORD) then
        ⟨.error (.nameError "body"),
          [.smtpPasswordMissing, .wouldSendEmail a.to_email a.task_id a.event_type],
          [], sa.1, sa.2⟩
      else
        match tr a.to_email with
        | .delivered =>
          ⟨.ok true, [.emailSent a.to_email a.task_id a.event_type], [a.to_email], sa.1, sa.2⟩
        | .authFailed m => ⟨.ok false, [.smtpAuthFailed m], [a.to_email], sa.1, sa.2⟩
        | .raised m =>
          ⟨.ok false, [.emailSendFailed a.to_email m], [a.to_email], sa.1, sa.2⟩

/-- The value `send_task_notification_email` produces for its caller:
the returned boolean plus the observable trace. -/
structure SendResult where
  result : Bool
  logs : List LogEvent
  sessions : List PyVal
  subject : String
  action : String
deriving DecidableEq

/-- `send_task_notification_email` (`email_sender.py` lines 25-413): the
`try` body with the outer `except Exception` applied — a caught exception
is logged and turned into `False`. -/
def send_task_notification_email (cfg : Settings) (tr : Transport) (a : SendArgs) :
    SendResult :=
  let t := sendTryBody cfg tr a
  match t.result with
  | .ok b => ⟨b, t.logs, t.sessions, t.subject, t.action⟩
  | .error e =>
    ⟨false, t.logs ++ [.errorSendingEmail a.to_email (excMsg e)], t.sessions,
      t.subject, t.action⟩

/-- The caller-visible outcome of a call to `send_task_notification_email`
in exception-explicit form: `.error` would mean an exception escapes to
the caller. -/
def sendCallOutcome (cfg : Settings) (tr : Transport) (a : SendArgs) : Except PyExc Bool :=
  match (sendTryBody cfg tr a).result with
  | .ok b => .ok b
  | .error _ => .ok false

/-! ## The worker's dispatch of one decoded event
(`EmailWorker.process_event`, `email_consumer.py` lines 106-162) -/

/-- One recipient's send outcome, recorded in dispatch order. -/
structure DeliveryAttempt where
  recipient_email : PyVal
  recipient_type : String
  success : Bool
deriving DecidableEq

/-- Observable behavior of one `process_event` call. -/
structure ProcTrace where
  result : Except PyExc Unit
  attempts : List DeliveryAttempt
  logs : List LogEvent

/-- The body of `process_event`'s `try`: read the record fields with
defaulted `get`, send to the assignee when its email is truthy, then to
the reporting owner when its email is truthy, logging a warning for each
absent recipient.  A non-dict event raises at the first `event.get`. -/
def processEventTry (cfg : Settings) (tr : Transport) (event : PyVal) : ProcTrace :=
  match event with
  | .obj fs =>
    let event_type := fs.getD "event_type" .null
    let task_id := fs.getD "task_id" .null
    let task_title := fs.getD "task_title" .null
    let assigned_to_email := fs.getD "assigned_to_email" .null
    let reporting_to_email := fs.getD "reporting_to_email" .null
    let _updated_by_id := fs.getD "updated_by_id" .null
    let updated_by_email := fs.getD "updated_by_email" .null
    let updated_by_role := fs.getD "updated_by_role" (.str "Owner")
    let organization_name := fs.getD "organization_name" .null
    let changes := fs.getD "changes" (.obj .nil)
    let reason := fs.getD "reason" .null
    let step1 :=
      if pyTruthy assigned_to_email then
        let r := send_task_notification_email cfg tr
          ⟨assigned_to_email, event_type, task_id, task_title, updated_by_email,
            updated_by_role, organization_name, changes, reason, "assigned_to"⟩
        ([DeliveryAttempt.mk assigned_to_email "assigned_to" r.result], r.logs)
      else ([], [LogEvent.noAssignedEmail task_id])
    let step2 :=
      if pyTruthy reporting_to_email then
        let r := send_task_notification_email cfg tr
          ⟨reporting_to_email, event_type, task_id, task_title, updated_by_email,
            updated_by_role, organization_name, changes, reason, "reporting_to"⟩
        ([DeliveryAttempt.mk reporting_to_email "reporting_to" r.result], r.logs)
      else ([], [LogEvent.noReportingEmail task_id])
    ⟨.ok (), step1.1 ++ step2.1,
      LogEvent.processingEvent event_type task_id ::
        (step1.2 ++ step2.2 ++ [LogEvent.processedEvent event_type task_id])⟩
  | _ => ⟨.error (.attributeError "object has no attribute get"), [], []⟩

/-- `EmailWorker.process_event`: the `try` body with the trailing
`except Exception` applied — a caught exception is logged and the method
returns normally. -/
def process_event (cfg : Settings) (tr : Transport) (event : PyVal) : ProcTrace :=
  let t := processEventTry cfg tr event
  match t.result with
  | .ok _ => t
  | .error e => ⟨.ok (), t.attempts, t.logs ++ [.errorProcessingEvent (excMsg e)]⟩

/-! ## The event producer
(`RedisEventQueue.enqueue_task_event`, `redis_queue.py` lines 26-73, and
the enqueue tails of `TaskService.update_task` / `delete_task`) -/

/-- The arguments of `enqueue_task_event`, typed as the producer's
signature declares them (unset optionals are `None`). -/
structure EnqueueArgs where
  event_type : String
  task_id : Int
  task_title : String
  assigned_to_id : Option Int
  reporting_to_id : Option Int
  assigned_to_email : Option String
  reporting_to_email : Option String
  updated_by_id : Option Int
  updated_by_email : Option String
  updated_by_role : Option String
  organization_id : Option Int
  organization_name : Option String
  changes : PyVal
  reason : Option String
deriving DecidableEq

/-- An optional integer as the JSON value the producer serializes. -/
def optIntVal : Option Int → PyVal
  | none => .null
  | some n => .int n

/-- An optional string as the JSON value the producer serializes. -/
def optStrVal : Option String → PyVal
  | none => .null
  | some s => .str s

/-- The event dict built by `enqueue_task_event` (`redis_queue.py` lines
49-65), in source key order, with `changes or {}` and the enqueue-time
timestamp. -/
def buildEventRecord (a : EnqueueArgs) (now : String) : PyFields :=
  .cons "event_type" (.str a.event_type) (
  .cons "task_id" (.int a.task_id) (
  .cons "task_title" (.str a.task_title) (
  .cons "assigned_to_id" (optIntVal a.assigned_to_id) (
  .cons "reporting_to_id" (optIntVal a.reporting_to_id) (
  .cons "assigned_to_email" (optStrVal a.assigned_to_email) (
  .cons "reporting_to_email" (optStrVal a.reporting_to_email) (
  .cons "updated_by_id" (optIntVal a.updated_by_id) (
  .cons "updated_by_email" (optStrVal a.updated_by_email) (
  .cons "updated_by_role" (optStrVal a.updated_by_role) (
  .cons "organization_id" (optIntVal a.organization_id) (
  .cons "organization_name" (optStrVal a.organization_name) (
  .cons "changes" (pyOrEmptyDict a.changes) (
  .cons "reason" (optStrVal a.reason) (
  .cons "timestamp" (.str now) .nil))))))))))))))

/-- Behavior of the broker's `rpush` as an oracle: append, or raise. -/
inductive PushOutcome where
  | ok
  | raises (msg : String)
deriving DecidableEq

/-- `redis_client.rpush(queue_name, entry)` in exception-explicit form. -/
def rpushExc (push : PushOutcome) (queue : List String) (entry : String) :
    Except PyExc (List String) :=
  match push with
  | .ok => .ok (queue ++ [entry])
  | .raises m => .error (.other m)

/-- The `try` around serialization and push in `enqueue_task_event`:
its raised exceptions, before the `except` catches them. -/
def enqueueTry (push : PushOutcome) (queue : List String) (a : EnqueueArgs)
    (now : String) : Except PyExc (List String × List LogEvent) :=
  match rpushExc push queue (jsonDumps (.obj (buildEventRecord a now))) with
  | .ok q2 => .ok (q2, [.enqueuedEvent a.event_type a.task_id])
  | .error e => .error e

/-- `RedisEventQueue.enqueue_task_event`: skip with a warning when the
client is unavailable, otherwise serialize and push with the append
failure caught and logged — the caller never sees an exception. -/
def enqueue_task_event (avail : Bool) (push : PushOutcome) (queue : List String)
    (a : EnqueueArgs) (now : String) : List String × List LogEvent :=
  if !avail then (queue, [.redisUnavailableSkip])
  else
    match enqueueTry push queue a now with
    | .ok r => r
    | .error e => (queue, [.enqueueFailed (excMsg e)])

/-- The caller-visible outcome of `enqueue_task_event` in
exception-explicit form: `.error` would mean the task mutation's request
handler sees an exception. -/
def enqueueCallOutcome (avail : Bool) (push : PushOutcome) (queue : List String)
    (a : EnqueueArgs) (now : String) : Except PyExc (List String × List LogEvent) :=
  if !avail then .ok (queue, [.redisUnavailableSkip])
  else
    match enqueueTry push queue a now with
    | .ok r => .ok r
    | .error e => .ok (queue, [.enqueueFailed (excMsg e)])

/-! ## The update and delete tails of the task service
(`task_service.py`) -/

/-- The post-mutation task row, as the enqueue tails read it. -/
structure TaskRec where
  id : Int
  title : String
  assigned_to : Option Int
  reporting_to : Option Int
deriving DecidableEq

/-- Python truthiness of an optional integer field. -/
def optIntTruthy : Option Int → Bool
  | none => false
  | some n => n ≠ 0

/-- One guarded collaborator lookup (`task_service.py` lines 365-411):
when the guard is falsy the email stays `None`; when the lookup raises,
the inner `except` logs a warning and the email stays `None`. -/
def resolveWith (guard : Bool) (r : Except PyExc (Option String)) (which : String) :
    Option String × List LogEvent :=
  if guard then
    match r with
    | .ok v => (v, [])
    | .error e => (none, [.resolveFailed which (excMsg e)])
  else (none, [])

/-- The collaborator-lookup outcomes during one `update_task` call, as
oracles (each lookup either yields an optional email or raises). -/
structure ResolveOracles where
  updByRes : Except PyExc (Option String)
  orgNameRes : Except PyExc (Option String)
  asgRes : Except PyExc (Option String)
  repRes : Except PyExc (Option String)

/-- The `formatted_changes` loop of `update_task` (`task_service.py`
lines 413-423): one entry per field of the update payload, in order; the
`status` entry becomes `\x7bold, new\x7d` exactly when the precomputed
old and new status differ, every other entry keeps the bare new value. -/
def formattedChangesOf (old_status new_status : PyVal) : PyFields → PyFields
  | .nil => .nil
  | .cons key new_value rest =>
    .cons key
      (if key = "status" ∧ old_status ≠ new_status then
        .obj (.cons "old" old_status (.cons "new" new_value .nil))
      else new_value)
      (formattedChangesOf old_status new_status rest)

/-- `formatted_changes` together with the earlier
`new_status = update_dict.get('status', old_status)`
(`task_service.py` line 221). -/
def update_task_changes (update_dict : PyFields) (old_status : PyVal) : PyFields :=
  formattedChangesOf old_status (update_dict.getD "status" old_status) update_dict

/-- The enqueue tail of `TaskService.update_task` (`task_service.py`
lines 356-443): resolve up to four collaborator emails with per-lookup
error recovery, format the changes, enqueue the `task_updated` event, and
return the already-updated task; the whole block is wrapped in a `try`
whose `except` only logs, so the task and the HTTP response are
unaffected by any failure here. -/
def update_task_finish (updated_task : TaskRec) (user_id : Int) (user_role : String)
    (organization_id : Int) (token : Option String) (oracles : ResolveOracles)
    (update_dict : PyFields) (old_status : PyVal) (reason : String)
    (avail : Bool) (push : PushOutcome) (queue : List String) (now : String) :
    TaskRec × List String × List LogEvent :=
  let r1 := resolveWith (decide (user_id ≠ 0) && optTruthy token) oracles.updByRes
    "updated_by"
  let r2 := resolveWith (decide (organization_id ≠ 0) && optTruthy token)
    oracles.orgNameRes "organization"
  let r3 := resolveWith (optIntTruthy updated_task.assigned_to && optTruthy token)
    oracles.asgRes "assigned_to"
  let r4 := resolveWith (optIntTruthy updated_task.reporting_to && optTruthy token)
    oracles.repRes "reporting_to"
  let formatted_changes := update_task_changes update_dict old_status
  let qe := enqueue_task_event avail push queue
    ⟨"task_updated", updated_task.id, updated_task.title, updated_task.assigned_to,
      updated_task.reporting_to, r3.1, r4.1, some user_id, r1.1, some user_role,
      some organization_id, r2.1, .obj formatted_changes, some reason⟩ now
  (updated_task, qe.1, r1.2 ++ r2.2 ++ r3.2 ++ r4.2 ++ qe.2)

/-- The envelope record of a `task_deleted` event as
`TaskService.delete_task` enqueues it (`task_service.py` lines 484-504):
no token is available on the delete path, so the recipient emails,
actor email, organization name, changes and reason are all left unset. -/
def delete_event_record (task : TaskRec) (user_id : Int) (user_role : String)
    (organization_id : Int) (now : String) : PyFields :=
  buildEventRecord
    ⟨"task_deleted", task.id, task.title, task.assigned_to, task.reporting_to,
      none, none, some user_id, none, some user_role, some organization_id,
      none, .null, none⟩ now

/-- The enqueue tail of `TaskService.delete_task`. -/
def delete_task_enqueue (task : TaskRec) (user_id : Int) (user_role : String)
    (organization_id : Int) (avail : Bool) (push : PushOutcome)
    (queue : List String) (now : String) : List String × List LogEvent :=
  enqueue_task_event avail push queue
    ⟨"task_deleted", task.id, task.title, task.assigned_to, task.reporting_to,
      none, none, some user_id, none, some user_role, some organization_id,
      none, .null, none⟩ now

/-! ## Behavioral lemmas shared by the claim theorems -/

/-- Whether one SMTP session outcome counts as delivered. -/
def sessionOk : SmtpOutcome → Bool
  | .delivered => true
  | .authFailed _ => false
  | .raised _ => false

/-- The log line the inner `try/except` of the send path emits for one
session outcome. -/
def sessionLogOf (a : SendArgs) : SmtpOutcome → LogEvent
  | .delivered => .emailSent a.to_email a.task_id a.event_type
  | .authFailed m => .smtpAuthFailed m
  | .raised m => .emailSendFailed a.to_email m

/-- The status-change rendering never raises on a dict. -/
theorem statusChangeText_obj (fs : PyFields) :
    ∃ s, statusChangeText (.obj fs) = .ok s := by
  rw [statusChangeText]
  cases fs with
  | nil => exact ⟨"", rfl⟩
  | cons k v r =>
    simp only [pyTruthy, pyIn, pyGetMeth, if_true, bind, Except.bind, pure, Except.pure]
    repeat' split
    all_goals exact ⟨_, rfl⟩

/-- The other-changes rendering never raises on a dict. -/
theorem otherChangesList_obj (fs : PyFields) :
    otherChangesList (.obj fs) = .ok (otherChangesOf fs) := by
  rw [otherChangesList, pyOrEmptyDict]
  cases fs with
  | nil => rfl
  | cons k v r => rfl

/-- The subject and action word of a send are always the selection from
`event_type` and `task_title`, whatever else happens. -/
theorem sendTryBody_subject_action (cfg : Settings) (tr : Transport) (a : SendArgs) :
    (sendTryBody cfg tr a).subject = (subjectAction a.event_type a.task_title).1 ∧
    (sendTryBody cfg tr a).action = (subjectAction a.event_type a.task_title).2 := by
  rw [sendTryBody]
  cases statusChangeText a.changes with
  | error e => exact ⟨rfl, rfl⟩
  | ok s =>
    cases otherChangesList a.changes with
    | error e => exact ⟨rfl, rfl⟩
    | ok l =>
      by_cases h1 : optTruthy cfg.SMTP_HOST
      · by_cases h2 : optTruthy cfg.SMTP_USER
        · by_cases h3 : optTruthy cfg.SMTP_PASSWORD
          · simp only [h1, h2, h3, Bool.not_true, if_false, Bool.false_eq_true]
            cases tr a.to_email <;> exact ⟨rfl, rfl⟩
          · simp [h1, h2, eq_false_of_ne_true h3]
        · simp [h1, eq_false_of_ne_true h2]
      · simp [eq_false_of_ne_true h1]

/-- With the transport fully configured and a dict (or falsy)
`changes`, the send path opens exactly one SMTP session for the
recipient and returns the session's outcome. -/
theorem sendTryBody_configured (cfg : Settings) (tr : Transport) (a : SendArgs)
    (cfs : PyFields) (hc : a.changes = .obj cfs)
    (h1 : optTruthy cfg.SMTP_HOST = true) (h2 : optTruthy cfg.SMTP_USER = true)
    (h3 : optTruthy cfg.SMTP_PASSWORD = true) :
    sendTryBody cfg tr a =
      ⟨.ok (sessionOk (tr a.to_email)), [sessionLogOf a (tr a.to_email)],
        [a.to_email], (subjectAction a.event_type a.task_title).1,
        (subjectAction a.event_type a.task_title).2⟩ := by
  rw [sendTryBody, hc]
  obtain ⟨s, hs⟩ := statusChangeText_obj cfs
  rw [hs, otherChangesList_obj]
  simp only [h1, h2, h3, Bool.not_true, if_false, Bool.false_eq_true]
  cases tr a.to_email <;> rfl

/-- `send_task_notification_email` under a configured transport: the
returned boolean is the session outcome and one session was opened. -/
theorem send_configured (cfg : Settings) (tr : Transport) (a : SendArgs)
    (cfs : PyFields) (hc : a.changes = .obj cfs)
    (h1 : optTruthy cfg.SMTP_HOST = true) (h2 : optTruthy cfg.SMTP_USER = true)
    (h3 : optTruthy cfg.SMTP_PASSWORD = true) :
    send_task_notification_email cfg tr a =
      ⟨sessionOk (tr a.to_email), [sessionLogOf a (tr a.to_email)], [a.to_email],
        (subjectAction a.event_type a.task_title).1,
        (subjectAction a.event_type a.task_title).2⟩ := by
  rw [send_task_notification_email, sendTryBody_configured cfg tr a cfs hc h1 h2 h3]

/-- `process_event` never lets an exception escape on a dict record. -/
theorem process_event_obj_result (cfg : Settings) (tr : Transport) (fs : PyFields) :
    (process_event cfg tr (.obj fs)).result = .ok () := by
  rw [process_event, processEventTry]

/-- The attempts of one `process_event` call on a dict record: one entry
per truthy recipient email, assignee first, each carrying the boolean
`send_task_notification_email` returned. -/
theorem process_event_obj_attempts (cfg : Settings) (tr : Transport) (fs : PyFields) :
    (process_event cfg tr (.obj fs)).attempts =
      (if pyTruthy (fs.getD "assigned_to_email" .null) then
        [⟨fs.getD "assigned_to_email" .null, "assigned_to",
          (send_task_notification_email cfg tr
            ⟨fs.getD "assigned_to_email" .null, fs.getD "event_type" .null,
              fs.getD "task_id" .null, fs.getD "task_title" .null,
              fs.getD "updated_by_email" .null, fs.getD "updated_by_role" (.str "Owner"),
              fs.getD "organization_name" .null, fs.getD "changes" (.obj .nil),
              fs.getD "reason" .null, "assigned_to"⟩).result⟩]
      else []) ++
      (if pyTruthy (fs.getD "reporting_to_email" .null) then
        [⟨fs.getD "reporting_to_email" .null, "reporting_to",
          (send_task_notification_email cfg tr
            ⟨fs.getD "reporting_to_email" .null, fs.getD "event_type" .null,
              fs.getD "task_id" .null, fs.getD "task_title" .null,
              fs.getD "updated_by_email" .null, fs.getD "updated_by_role" (.str "Owner"),
              fs.getD "organization_name" .null, fs.getD "changes" (.obj .nil),
              fs.getD "reason" .null, "reporting_to"⟩).result⟩]
      else []) := by
  rw [process_event, processEventTry]
  by_cases ha : pyTruthy (fs.getD "assigned_to_email" .null) <;>
    by_cases hr : pyTruthy (fs.getD "reporting_to_email" .null) <;>
      simp [ha, hr]

/-- A key the dict does not have falls through to the default. -/
theorem getD_of_hasKey_false : ∀ (fs : PyFields) (key : String) (d : PyVal),
    fs.hasKey key = false → fs.getD key d = d
  | .nil, _, _, _ => rfl
  | .cons k v r, key, d, h => by
    rw [PyFields.hasKey] at h
    simp only [Bool.or_eq_false_iff, decide_eq_false_iff_not] at h
    rw [PyFields.getD, if_neg h.1]
    exact getD_of_hasKey_false r key d h.2

/-- Appending a field with a fresh key does not change other lookups. -/
theorem getD_append_ne : ∀ (fs : PyFields) (k : String) (v : PyVal) (key : String)
    (d : PyVal), k ≠ key → (fs.append k v).getD key d = fs.getD key d
  | .nil, k, v, key, d, h => by
    rw [PyFields.append]
    rw [show (PyFields.cons k v .nil).getD key d =
      PyFields.getD .nil key (if k = key then v else d) from rfl]
    rw [if_neg h]
  | .cons k0 v0 r, k, v, key, d, h => by
    rw [PyFields.append, PyFields.getD, PyFields.getD]
    exact getD_append_ne r k v key _ h

/-- When the key is present, the lookup ignores the default. -/
theorem getD_of_hasKey_true : ∀ (fs : PyFields) (key : String) (d1 d2 : PyVal),
    fs.hasKey key = true → fs.getD key d1 = fs.getD key d2
  | .nil, key, _, _, h => by
    rw [PyFields.hasKey] at h
    exact absurd h (by simp)
  | .cons k v r, key, d1, d2, h => by
    rw [PyFields.getD, PyFields.getD]
    cases hr : r.hasKey key with
    | true => exact getD_of_hasKey_true r key _ _ hr
    | false =>
      rw [PyFields.hasKey, hr] at h
      have hk : k = key := by simpa using h
      rw [if_pos hk, if_pos hk]

/-- The formatted-changes loop keeps exactly the payload's keys. -/
theorem formatted_hasKey (os ns : PyVal) :
    ∀ (ud : PyFields) (k : String),
      (formattedChangesOf os ns ud).hasKey k = ud.hasKey k
  | .nil, _ => rfl
  | .cons k0 v r, k => by
    rw [formattedChangesOf, PyFields.hasKey, PyFields.hasKey, formatted_hasKey os ns r k]

/-- Every non-status payload entry passes through unchanged (its bare new
value, whether or not the underlying field actually changed). -/
theorem formatted_getD_ne (os ns : PyVal) :
    ∀ (ud : PyFields) (k : String) (d : PyVal), k ≠ "status" →
      (formattedChangesOf os ns ud).getD k d = ud.getD k d
  | .nil, _, _, _ => rfl
  | .cons k0 v r, k, d, h => by
    rw [formattedChangesOf, PyFields.getD, PyFields.getD]
    by_cases hk : k0 = k
    · rw [if_pos hk, if_pos hk,
        if_neg (show ¬(k0 = "status" ∧ os ≠ ns) from fun hc => h (hk.symm.trans hc.1))]
      exact formatted_getD_ne os ns r k v h
    · rw [if_neg hk, if_neg hk]
      exact formatted_getD_ne os ns r k d h

/-- When the payload has a status entry and the status changed, the
formatted mapping carries the `\x7bold, new\x7d` record for it. -/
theorem formatted_getD_status (os ns : PyVal) (hne : os ≠ ns) :
    ∀ (ud : PyFields) (d d2 : PyVal), ud.hasKey "status" = true →
      (formattedChangesOf os ns ud).getD "status" d =
        .obj (.cons "old" os (.cons "new" (ud.getD "status" d2) .nil))
  | .nil, _, _, h => by
    rw [PyFields.hasKey] at h
    exact absurd h (by simp)
  | .cons k0 v r, d, d2, h => by
    rw [formattedChangesOf, PyFields.getD, PyFields.getD]
    cases hr : r.hasKey "status" with
    | true => exact formatted_getD_status os ns hne r _ _ hr
    | false =>
      rw [PyFields.hasKey, hr] at h
      have hk : k0 = "status" := by simpa using h
      have hfr : (formattedChangesOf os ns r).hasKey "status" = false := by
        rw [formatted_hasKey os ns r]
        exact hr
      rw [getD_of_hasKey_false _ _ _ hfr, getD_of_hasKey_false _ _ _ hr,
        if_pos hk, if_pos hk, if_pos ⟨hk, hne⟩]

/-- When the precomputed old and new status agree, the loop's special
case never fires and the mapping is the payload itself. -/
theorem formattedChangesOf_self (os : PyVal) :
    ∀ ud : PyFields, formattedChangesOf os os ud = ud
  | .nil => rfl
  | .cons k v r => by
    rw [formattedChangesOf, formattedChangesOf_self os r,
      if_neg (fun hc => hc.2 rfl)]

/-! ## The claims -/

/-- C1: with the outbound transport unconfigured (`SMTP_HOST` unset) the
code was meant to log the would-be send and return `True`, but the
would-be-send branch evaluates the undefined name `body`
(`email_sender.py` line 377), so after logging the would-send lines the
`NameError` is caught by the outer handler and the call returns `False`
— evaluated here at a concrete envelope and recipient. -/
theorem C1_unconfigured_send_returns_false :
    send_task_notification_email ⟨none, 587, none, none, none, true⟩
      (fun _ => .delivered)
      ⟨.str "dev7@x.com", .str "task_created", .int 42, .str "Fix login bug",
        .null, .str "Owner", .null, .obj .nil, .null, "assigned_to"⟩ =
      ⟨false,
        [.smtpHostMissing,
          .wouldSendEmail (.str "dev7@x.com") (.int 42) (.str "task_created"),
          .errorSendingEmail (.str "dev7@x.com") (excMsg (.nameError "body"))],
        [], "New Task Assigned: Fix login bug", "created"⟩ ∧
    (sendTryBody ⟨none, 587, none, none, none, true⟩ (fun _ => .delivered)
      ⟨.str "dev7@x.com", .str "task_created", .int 42, .str "Fix login bug",
        .null, .str "Owner", .null, .obj .nil, .null, "assigned_to"⟩).result =
      .error (.nameError "body") := by
  constructor
  · decide
  · decide

/-- C7: every Event Envelope the producer constructs survives the queue
wire format: `json.dumps` followed by `json.loads` yields a record equal
in all fields to the original, for all argument values and timestamps. -/
theorem C7_envelope_roundtrip (a : EnqueueArgs) (now : String) :
    jsonLoads (jsonDumps (.obj (buildEventRecord a now))) =
      some (.obj (buildEventRecord a now)) :=
  jsonLoads_jsonDumps _

/-- C9: `send_task_notification_email` is total at its interface: for
every configuration, transport behavior and argument record (including
`None` ids, unknown event kinds and arbitrary `changes` values) the call
completes with `.ok` — no exception escapes — and the value returned is
the boolean the function computed. -/
theorem C9_send_never_raises (cfg : Settings) (tr : Transport) (a : SendArgs) :
    ∃ b : Bool, sendCallOutcome cfg tr a = .ok b ∧
      (send_task_notification_email cfg tr a).result = b := by
  rw [sendCallOutcome, send_task_notification_email]
  cases h : (sendTryBody cfg tr a).result with
  | ok b => exact ⟨b, rfl, rfl⟩
  | error e => exact ⟨false, rfl, rfl⟩

/-- C10: for any `event_type` string other than the three known kinds,
the dispatcher does not reject the event — the subject falls back to
`"Task Notification: <title>"`, the action word to `"modified"`, and
(with the transport configured and a dict `changes`) one delivery is
still attempted for the recipient. -/
theorem C10_unknown_event_type (cfg : Settings) (tr : Transport) (a : SendArgs)
    (s : String) (cfs : PyFields)
    (hev : a.event_type = .str s)
    (h1 : s ≠ "task_created") (h2 : s ≠ "task_updated") (h3 : s ≠ "task_deleted")
    (hc : a.changes = .obj cfs)
    (hH : optTruthy cfg.SMTP_HOST = true) (hU : optTruthy cfg.SMTP_USER = true)
    (hP : optTruthy cfg.SMTP_PASSWORD = true) :
    (send_task_notification_email cfg tr a).subject =
      "Task Notification: " ++ pyStr a.task_title ∧
    (send_task_notification_email cfg tr a).action = "modified" ∧
    (send_task_notification_email cfg tr a).sessions = [a.to_email] := by
  rw [send_configured cfg tr a cfs hc hH hU hP]
  refine ⟨?_, ?_, rfl⟩ <;>
    simp [subjectAction, pyEqStr, hev, h1, h2, h3]

/-- C10 witness: a concrete `task_edited` event under a configured
transport is delivered with the fallback subject and action. -/
theorem C10_unknown_event_type_witness :
    (send_task_notification_email ⟨some "smtp.x.com", 587, some "u@x.com",
        some "pw", none, true⟩ (fun _ => .delivered)
      ⟨.str "a@x.com", .str "task_edited", .int 1, .str "T", .null,
        .str "Owner", .null, .obj .nil, .null, "assigned_to"⟩).subject =
      "Task Notification: " ++ pyStr (.str "T") ∧
    (send_task_notification_email ⟨some "smtp.x.com", 587, some "u@x.com",
        some "pw", none, true⟩ (fun _ => .delivered)
      ⟨.str "a@x.com", .str "task_edited", .int 1, .str "T", .null,
        .str "Owner", .null, .obj .nil, .null, "assigned_to"⟩).action = "modified" ∧
    (send_task_notification_email ⟨some "smtp.x.com", 587, some "u@x.com",
        some "pw", none, true⟩ (fun _ => .delivered)
      ⟨.str "a@x.com", .str "task_edited", .int 1, .str "T", .null,
        .str "Owner", .null, .obj .nil, .null, "assigned_to"⟩).sessions =
      [.str "a@x.com"] :=
  C10_unknown_event_type _ _ _ "task_edited" .nil rfl (by decide) (by decide)
    (by decide) rfl (by decide) (by decide) (by decide)

/-- C6: an envelope record carrying neither a truthy
`assigned_to_email` nor a truthy `reporting_to_email` produces zero
dispatch attempts, completes without error, and logs exactly the
processing lines, the two no-recipient warnings and the processed
line. -/
theorem C6_no_recipients_noop (cfg : Settings) (tr : Transport) (fs : PyFields)
    (hA : pyTruthy (fs.getD "assigned_to_email" .null) = false)
    (hR : pyTruthy (fs.getD "reporting_to_email" .null) = false) :
    (process_event cfg tr (.obj fs)).attempts = [] ∧
    (process_event cfg tr (.obj fs)).result = .ok () ∧
    (process_event cfg tr (.obj fs)).logs =
      [.processingEvent (fs.getD "event_type" .null) (fs.getD "task_id" .null),
        .noAssignedEmail (fs.getD "task_id" .null),
        .noReportingEmail (fs.getD "task_id" .null),
        .processedEvent (fs.getD "event_type" .null) (fs.getD "task_id" .null)] := by
  refine ⟨?_, process_event_obj_result cfg tr fs, ?_⟩
  · rw [process_event_obj_attempts]
    simp [hA, hR]
  · rw [process_event, processEventTry]
    simp [hA, hR]

/-- C6 witness: the empty record dispatches to no one and is logged as a
no-op. -/
theorem C6_no_recipients_noop_witness :
    (process_event ⟨none, 587, none, none, none, true⟩ (fun _ => .delivered)
      (.obj .nil)).attempts = [] ∧
    (process_event ⟨none, 587, none, none, none, true⟩ (fun _ => .delivered)
      (.obj .nil)).result = .ok () ∧
    (process_event ⟨none, 587, none, none, none, true⟩ (fun _ => .delivered)
      (.obj .nil)).logs =
      [.processingEvent .null .null, .noAssignedEmail .null,
        .noReportingEmail .null, .processedEvent .null .null] :=
  C6_no_recipients_noop _ _ .nil (by decide) (by decide)

/-- C3: for an envelope carrying two non-empty recipient emails where the
transport session for one raises (or fails authentication) and the
session for the other succeeds, both attempts are made in order — the
failure does not suppress the second attempt — the recorded outcomes are
one failure and one success, and no exception escapes the dispatch. -/
theorem C3_partial_failure_isolated (cfg : Settings) (tr : Transport)
    (fs : PyFields) (ea eb : String) (cfs : PyFields)
    (hH : optTruthy cfg.SMTP_HOST = true) (hU : optTruthy cfg.SMTP_USER = true)
    (hP : optTruthy cfg.SMTP_PASSWORD = true)
    (hA : fs.getD "assigned_to_email" .null = .str ea) (hea : ea ≠ "")
    (hR : fs.getD "reporting_to_email" .null = .str eb) (heb : eb ≠ "")
    (hC : fs.getD "changes" (.obj .nil) = .obj cfs)
    (hfail : sessionOk (tr (.str ea)) = false)
    (hok : sessionOk (tr (.str eb)) = true) :
    (process_event cfg tr (.obj fs)).attempts =
      [⟨.str ea, "assigned_to", false⟩, ⟨.str eb, "reporting_to", true⟩] ∧
    (process_event cfg tr (.obj fs)).result = .ok () := by
  refine ⟨?_, process_event_obj_result cfg tr fs⟩
  rw [process_event_obj_attempts, hA, hR, hC]
  rw [if_pos (show pyTruthy (.str ea) = true by simp [pyTruthy, hea]),
    if_pos (show pyTruthy (.str eb) = true by simp [pyTruthy, heb])]
  rw [send_configured cfg tr _ cfs rfl hH hU hP,
    send_configured cfg tr _ cfs rfl hH hU hP]
  simp [hfail, hok]

/-- C3 witness: with the assignee's session raising and the reporting
owner's delivering, both attempts appear, failed then succeeded. -/
theorem C3_partial_failure_isolated_witness :
    (process_event ⟨some "smtp.x.com", 587, some "u@x.com", some "pw", none, true⟩
      (fun v => if v = .str "a@x.com" then .raised "connection reset" else .delivered)
      (.obj (.cons "task_id" (.int 1) (.cons "event_type" (.str "task_updated")
        (.cons "assigned_to_email" (.str "a@x.com")
          (.cons "reporting_to_email" (.str "b@x.com") .nil)))))).attempts =
      [⟨.str "a@x.com", "assigned_to", false⟩, ⟨.str "b@x.com", "reporting_to", true⟩] ∧
    (process_event ⟨some "smtp.x.com", 587, some "u@x.com", some "pw", none, true⟩
      (fun v => if v = .str "a@x.com" then .raised "connection reset" else .delivered)
      (.obj (.cons "task_id" (.int 1) (.cons "event_type" (.str "task_updated")
        (.cons "assigned_to_email" (.str "a@x.com")
          (.cons "reporting_to_email" (.str "b@x.com") .nil)))))).result = .ok () :=
  C3_partial_failure_isolated _ _ _ "a@x.com" "b@x.com" .nil
    (by decide) (by decide) (by decide) (by decide) (by decide) (by decide)
    (by decide) (by decide) (by decide) (by decide)

/-- C2 counterexample: a queue entry that decodes to a record missing
both `task_id` and `event_type` but carrying a recipient email is not
skipped — the worker makes one delivery attempt, not zero, so the
claimed fail-closed skip does not happen. -/
theorem C2_missing_ids_counterexample :
    jsonLoads (jsonDumps (.obj (.cons "assigned_to_email" (.str "a@x.com") .nil))) =
      some (.obj (.cons "assigned_to_email" (.str "a@x.com") .nil)) ∧
    (PyFields.cons "assigned_to_email" (.str "a@x.com") .nil).hasKey "task_id" = false ∧
    (PyFields.cons "assigned_to_email" (.str "a@x.com") .nil).hasKey "event_type"
      = false ∧
    (process_event ⟨some "smtp.x.com", 587, some "u@x.com", some "pw", none, true⟩
      (fun _ => .delivered)
      (.obj (.cons "assigned_to_email" (.str "a@x.com") .nil))).attempts.length = 1 :=
  ⟨jsonLoads_jsonDumps _, by decide, by decide, by decide⟩

/-- C2 (amended): the worker does not crash on a record missing
`task_id` or `event_type` and tolerates unknown extra keys — but it does
not skip such a record: processing always completes without exception,
the number of delivery attempts is exactly the number of truthy
recipient emails (with `None` standing in for the missing fields), and
appending a field under any key the worker does not read leaves the
whole outcome unchanged. -/
theorem C2_missing_ids_tolerated (cfg : Settings) (tr : Transport) (fs : PyFields)
    (k : String) (v : PyVal) :
    (process_event cfg tr (.obj fs)).result = .ok () ∧
    (process_event cfg tr (.obj fs)).attempts.length =
      ((if pyTruthy (fs.getD "assigned_to_email" .null) then 1 else 0) +
        (if pyTruthy (fs.getD "reporting_to_email" .null) then 1 else 0)) ∧
    (k ∉ (["event_type", "task_id", "task_title", "assigned_to_email",
        "reporting_to_email", "updated_by_id", "updated_by_email",
        "updated_by_role", "organization_name", "changes", "reason"] :
          List String) →
      process_event cfg tr (.obj (fs.append k v)) = process_event cfg tr (.obj fs)) := by
  refine ⟨process_event_obj_result cfg tr fs, ?_, ?_⟩
  · rw [process_event_obj_attempts]
    by_cases ha : pyTruthy (fs.getD "assigned_to_email" .null) <;>
      by_cases hr : pyTruthy (fs.getD "reporting_to_email" .null) <;>
        simp [ha, hr]
  · intro hk
    simp only [List.mem_cons, List.not_mem_nil, or_false, not_or] at hk
    obtain ⟨n1, n2, n3, n4, n5, n6, n7, n8, n9, n10, n11⟩ := hk
    rw [process_event, process_event, processEventTry, processEventTry]
    rw [getD_append_ne fs k v _ _ n1, getD_append_ne fs k v _ _ n2,
      getD_append_ne fs k v _ _ n3, getD_append_ne fs k v _ _ n4,
      getD_append_ne fs k v _ _ n5,
      getD_append_ne fs k v _ _ n7, getD_append_ne fs k v _ _ n8,
      getD_append_ne fs k v _ _ n9, getD_append_ne fs k v _ _ n10,
      getD_append_ne fs k v _ _ n11]

/-- C2 amended witness: a record with only a recipient email — no
`task_id`, no `event_type` — is processed without error with one
attempt, and an unread extra key changes nothing. -/
theorem C2_missing_ids_tolerated_witness :
    (process_event ⟨some "smtp.x.com", 587, some "u@x.com", some "pw", none, true⟩
      (fun _ => .delivered)
      (.obj (.cons "assigned_to_email" (.str "a@x.com") .nil))).result = .ok () ∧
    (process_event ⟨some "smtp.x.com", 587, some "u@x.com", some "pw", none, true⟩
      (fun _ => .delivered)
      (.obj (.cons "assigned_to_email" (.str "a@x.com") .nil))).attempts.length =
      ((if pyTruthy ((PyFields.cons "assigned_to_email" (.str "a@x.com") .nil).getD
          "assigned_to_email" .null) then 1 else 0) +
        (if pyTruthy ((PyFields.cons "assigned_to_email" (.str "a@x.com") .nil).getD
          "reporting_to_email" .null) then 1 else 0)) ∧
    process_event ⟨some "smtp.x.com", 587, some "u@x.com", some "pw", none, true⟩
      (fun _ => .delivered)
      (.obj ((PyFields.cons "assigned_to_email" (.str "a@x.com") .nil).append
        "future_field" (.int 3))) =
    process_event ⟨some "smtp.x.com", 587, some "u@x.com", some "pw", none, true⟩
      (fun _ => .delivered)
      (.obj (.cons "assigned_to_email" (.str "a@x.com") .nil)) := by
  have h := C2_missing_ids_tolerated
    ⟨some "smtp.x.com", 587, some "u@x.com", some "pw", none, true⟩
    (fun _ => .delivered) (.cons "assigned_to_email" (.str "a@x.com") .nil)
    "future_field" (.int 3)
  exact ⟨h.1, h.2.1, h.2.2 (by decide)⟩

/-- C4: an unreachable queue or a failing append never escapes
`enqueue_task_event` — the caller-visible outcome is always `.ok`, on
failure the queue is left unchanged — and the task service's update tail
returns the already-updated task whatever the lookups or the broker do,
so the mutation is not rolled back and the HTTP response is not
failed. -/
theorem C4_enqueue_failure_contained (avail : Bool) (push : PushOutcome)
    (queue : List String) (a : EnqueueArgs) (now : String) :
    enqueueCallOutcome avail push queue a now =
      .ok (enqueue_task_event avail push queue a now) ∧
    ((avail = false ∨ ∃ m, push = .raises m) →
      (enqueue_task_event avail push queue a now).1 = queue) ∧
    (∀ (task : TaskRec) (user_id : Int) (user_role : String) (organization_id : Int)
        (token : Option String) (oracles : ResolveOracles) (update_dict : PyFields)
        (old_status : PyVal) (reason : String),
      (update_task_finish task user_id user_role organization_id token oracles
        update_dict old_status reason avail push queue now).1 = task) := by
  refine ⟨?_, ?_, ?_⟩
  · cases avail with
    | false => rfl
    | true => cases push <;> rfl
  · intro h
    cases avail with
    | false => rfl
    | true =>
      rcases h with h | ⟨m, hm⟩
      · exact absurd h (by decide)
      · subst hm
        rfl
  · intro task user_id user_role organization_id token oracles update_dict
      old_status reason
    rfl

/-- C4 witness: with the broker down, the enqueue returns normally with
the queue untouched and the update tail still returns the task. -/
theorem C4_enqueue_failure_contained_witness :
    enqueueCallOutcome false .ok ["e0"]
      ⟨"task_updated", 1, "T", none, none, none, none, none, none, none, none,
        none, .null, none⟩ "now" =
      .ok (enqueue_task_event false .ok ["e0"]
        ⟨"task_updated", 1, "T", none, none, none, none, none, none, none, none,
          none, .null, none⟩ "now") ∧
    (enqueue_task_event false .ok ["e0"]
      ⟨"task_updated", 1, "T", none, none, none, none, none, none, none, none,
        none, .null, none⟩ "now").1 = ["e0"] ∧
    (update_task_finish ⟨1, "T", none, none⟩ 7 "Developer" 1 none
      ⟨.ok none, .ok none, .ok none, .ok none⟩ .nil (.str "open") "r"
      false .ok ["e0"] "now").1 = ⟨1, "T", none, none⟩ := by
  have h := C4_enqueue_failure_contained false .ok ["e0"]
    ⟨"task_updated", 1, "T", none, none, none, none, none, none, none, none,
      none, .null, none⟩ "now"
  exact ⟨h.1, h.2.1 (Or.inl rfl), h.2.2 ⟨1, "T", none, none⟩ 7 "Developer" 1 none
    ⟨.ok none, .ok none, .ok none, .ok none⟩ .nil (.str "open") "r"⟩

/-- C5 counterexample: an update payload that sets `status` to its
current value is a field that did not change, yet the changes mapping
still contains an entry for it (the bare value), contradicting the
claim that unchanged fields get no entry. -/
theorem C5_unchanged_field_counterexample :
    (PyFields.cons "status" (.str "open") .nil).getD "status" (.str "open") =
      .str "open" ∧
    update_task_changes (.cons "status" (.str "open") .nil) (.str "open") =
      .cons "status" (.str "open") .nil := by
  constructor
  · decide
  · decide

/-- C5 (amended): the changes mapping contains exactly one entry per
field present in the update payload — whether or not the field's value
actually changed: the key set is the payload's; every non-status field
keeps its bare new value; `status` is encoded as `\x7bold, new\x7d`
exactly when the new status differs from the pre-update status, and
otherwise (status absent, or submitted unchanged) the mapping is the
payload itself, bare values included. -/
theorem C5_changes_encoding (ud : PyFields) (old_status : PyVal) (k : String)
    (d d2 : PyVal) :
    ((update_task_changes ud old_status).hasKey k = ud.hasKey k) ∧
    (k ≠ "status" →
      (update_task_changes ud old_status).getD k d = ud.getD k d) ∧
    (ud.getD "status" old_status ≠ old_status →
      (update_task_changes ud old_status).getD "status" d =
        .obj (.cons "old" old_status (.cons "new" (ud.getD "status" d2) .nil))) ∧
    (ud.getD "status" old_status = old_status →
      update_task_changes ud old_status = ud) := by
  refine ⟨?_, ?_, ?_, ?_⟩
  · rw [update_task_changes]
    exact formatted_hasKey _ _ ud k
  · intro hk
    rw [update_task_changes]
    exact formatted_getD_ne _ _ ud k d hk
  · intro hne
    have hhas : ud.hasKey "status" = true := by
      by_contra hfalse
      have hf : ud.hasKey "status" = false := by
        cases h : ud.hasKey "status" with
        | true => exact absurd h hfalse
        | false => rfl
      exact hne (getD_of_hasKey_false ud "status" old_status hf)
    rw [update_task_changes]
    rw [formatted_getD_status old_status (ud.getD "status" old_status)
      (fun he => hne he.symm) ud d d2 hhas]
  · intro heq
    rw [update_task_changes, heq]
    exact formattedChangesOf_self old_status ud

/-- C5 amended witness: a payload changing the status and re-submitting
the title shows the `\x7bold, new\x7d` status record, the bare title
value, the preserved key set, and the identity case when the submitted
status equals the old one. -/
theorem C5_changes_encoding_witness :
    ((update_task_changes
        (.cons "status" (.str "in_review") (.cons "title" (.str "T") .nil))
        (.str "open")).hasKey "title" =
      (PyFields.cons "status" (.str "in_review")
        (.cons "title" (.str "T") .nil)).hasKey "title") ∧
    ((update_task_changes
        (.cons "status" (.str "in_review") (.cons "title" (.str "T") .nil))
        (.str "open")).getD "title" .null =
      (PyFields.cons "status" (.str "in_review")
        (.cons "title" (.str "T") .nil)).getD "title" .null) ∧
    ((update_task_changes
        (.cons "status" (.str "in_review") (.cons "title" (.str "T") .nil))
        (.str "open")).getD "status" .null =
      .obj (.cons "old" (.str "open") (.cons "new"
        ((PyFields.cons "status" (.str "in_review")
          (.cons "title" (.str "T") .nil)).getD "status" .null) .nil))) ∧
    (update_task_changes (.cons "status" (.str "open") .nil) (.str "open") =
      .cons "status" (.str "open") .nil) := by
  have h := C5_changes_encoding
    (.cons "status" (.str "in_review") (.cons "title" (.str "T") .nil))
    (.str "open") "title" .null .null
  have h2 := C5_changes_encoding (.cons "status" (.str "open") .nil)
    (.str "open") "status" .null .null
  exact ⟨h.1, h.2.1 (by decide), h.2.2.1 (by decide), h2.2.2.2 (by decide)⟩

/-- C8: every `task_deleted` envelope the producer enqueues has both
recipient email fields unset (`None`) — recipient resolution is never
performed on the delete path — the enqueued entry is exactly the
serialized delete record, and dispatching any such record makes zero
delivery attempts and reports no error. -/
theorem C8_delete_event_zero_attempts (task : TaskRec) (user_id : Int)
    (user_role : String) (organization_id : Int) (now : String)
    (cfg : Settings) (tr : Transport) (d : PyVal) :
    (delete_event_record task user_id user_role organization_id now).getD
      "assigned_to_email" d = .null ∧
    (delete_event_record task user_id user_role organization_id now).getD
      "reporting_to_email" d = .null ∧
    delete_task_enqueue task user_id user_role organization_id true .ok [] now =
      ([jsonDumps (.obj (delete_event_record task user_id user_role
        organization_id now))], [.enqueuedEvent "task_deleted" task.id]) ∧
    (process_event cfg tr
      (.obj (delete_event_record task user_id user_role organization_id now))).attempts
      = [] ∧
    (process_event cfg tr
      (.obj (delete_event_record task user_id user_role organization_id now))).result
      = .ok () := by
  have hA : (delete_event_record task user_id user_role organization_id now).getD
      "assigned_to_email" d = .null := by
    simp +decide [delete_event_record, buildEventRecord, optStrVal, optIntVal,
      PyFields.getD]
  have hR : (delete_event_record task user_id user_role organization_id now).getD
      "reporting_to_email" d = .null := by
    simp +decide [delete_event_record, buildEventRecord, optStrVal, optIntVal,
      PyFields.getD]
  refine ⟨hA, hR, rfl, ?_, process_event_obj_result cfg tr _⟩
  rw [process_event_obj_attempts]
  have hA2 : (delete_event_record task user_id user_role organization_id now).getD
      "assigned_to_email" .null = .null := by
    simp +decide [delete_event_record, buildEventRecord, optStrVal, optIntVal,
      PyFields.getD]
  have hR2 : (delete_event_record task user_id user_role organization_id now).getD
      "reporting_to_email" .null = .null := by
    simp +decide [delete_event_record, buildEventRecord, optStrVal, optIntVal,
      PyFields.getD]
  rw [hA2, hR2]
  simp [pyTruthy]

end TaskUno
